import Mathlib

/-!
Verification of the financial core of `finance_optim.py`: the French-system
amortization schedule generator `generar_cuadro_marcha` and the bounded
search `optimizar_prestamo`.  Money amounts and rates are embedded as exact
rationals; the numerical internal-rate-of-return solver (`npf.irr`) is an
oracle parameter `irr : List ℚ → Option ℚ`, where `none` models both a
raised `ValueError` and a non-numeric result, matching the `try/except`
and the `is not None` guard in the source.
-/

namespace FinanceOptim

/-- One row of the schedule (`cuadro_data.append` in the source), with the
same nine fields the dictionary carries. -/
structure Row where
  nCuota : ℕ
  saldoInicial : ℚ
  cuotaPura : ℚ
  interes : ℚ
  amortizacion : ℚ
  gastosAdmin : ℚ
  iva : ℚ
  cuotaTotal : ℚ
  saldoFinal : ℚ
deriving Repr, DecidableEq

/-- The `metricas` dictionary returned by `generar_cuadro_marcha`. -/
structure Metricas where
  n_cuotas : ℕ
  cuota_total_media : ℚ
  costo_financiero_total_pct : ℚ
deriving Repr, DecidableEq

/-- The `opcion_actual` dictionary built inside `optimizar_prestamo`. -/
structure Opcion where
  n_cuotas : ℕ
  cft_pct : ℚ
  cuota_total : ℚ
deriving Repr, DecidableEq

/-- The pure installment: `npf.pmt(tasa_mensual, n_cuotas, -monto)` when the
monthly rate is positive (the closed annuity formula npf.pmt evaluates),
otherwise `monto / n_cuotas` guarded by `n_cuotas > 0`.  (When
`n_cuotas = 0` and the rate is positive the Python float expression divides
by zero and yields `inf`; the value is never read in that case because the
schedule below is empty, so the ℚ convention `x / 0 = 0` is harmless.) -/
def cuota_pura (monto : ℚ) (n_cuotas : ℕ) (tasa_mensual : ℚ) : ℚ :=
  if 0 < tasa_mensual then
    monto * ((1 + tasa_mensual) ^ n_cuotas * tasa_mensual) /
      ((1 + tasa_mensual) ^ n_cuotas - 1)
  else if 0 < n_cuotas then monto / (n_cuotas : ℚ) else 0

/-- The body of one iteration of the `for periodo in range(1, n_cuotas+1)`
loop: interest, amortization (overridden to the full remaining balance in
the last period), closing balance, fee and tax charges, total payment. -/
def mkRow (cp tasa gastos iva : ℚ) (n_cuotas periodo : ℕ) (saldo : ℚ) : Row :=
  let interes_mes := saldo * tasa
  let amortizacion_capital := if periodo = n_cuotas then saldo else cp - interes_mes
  let saldo_final := saldo - amortizacion_capital
  let iva_sobre_intereses := interes_mes * iva
  let iva_sobre_gastos := gastos * iva
  let total_gastos_impuestos := gastos + iva_sobre_intereses + iva_sobre_gastos
  let cuota_total_a_pagar := cp + total_gastos_impuestos
  { nCuota := periodo
    saldoInicial := saldo
    cuotaPura := cp
    interes := interes_mes
    amortizacion := amortizacion_capital
    gastosAdmin := gastos
    iva := iva_sobre_intereses + iva_sobre_gastos
    cuotaTotal := cuota_total_a_pagar
    saldoFinal := saldo_final }

/-- The schedule loop, recursing on the number `rem` of remaining periods;
`periodo` is the 1-based index of the next row and `saldo` the running
`saldo_pendiente`.  Invoked from `cuadro` with `rem = n_cuotas` and
`periodo = 1`, so `periodo + rem = n_cuotas + 1` throughout. -/
def filasAux (cp tasa gastos iva : ℚ) (n_cuotas : ℕ) :
    ℕ → ℕ → ℚ → List Row
  | 0, _, _ => []
  | rem + 1, periodo, saldo =>
    let r := mkRow cp tasa gastos iva n_cuotas periodo saldo
    r :: filasAux cp tasa gastos iva n_cuotas rem (periodo + 1) r.saldoFinal

/-- The full `cuadro_data` list built by `generar_cuadro_marcha`. -/
def cuadro (monto : ℚ) (n_cuotas : ℕ) (tna gastos iva : ℚ) : List Row :=
  filasAux (cuota_pura monto n_cuotas (tna / 12)) (tna / 12) gastos iva
    n_cuotas n_cuotas 1 monto

/-- The cash-flow series `flujo_caja_cft`: the negated principal followed by
each period's total payment. -/
def flujo_caja_cft (monto : ℚ) (rows : List Row) : List ℚ :=
  -monto :: rows.map (fun r => r.cuotaTotal)

/-- `cft_anual`: annualize the monthly internal rate of return, degrading to
0 when the solver fails (`none`) or returns a rate ≤ −1. -/
def cft_anual (irr : List ℚ → Option ℚ) (flujo : List ℚ) : ℚ :=
  match irr flujo with
  | some r => if -1 < r then (1 + r) ^ (12 : ℕ) - 1 else 0
  | none => 0

/-- The `metricas` dictionary: installment count, mean total payment
(`cuadro_df['Cuota Total'].mean()`), and the annualized cost rate as a
percentage. -/
def resumen (irr : List ℚ → Option ℚ) (monto : ℚ) (n_cuotas : ℕ)
    (tna gastos iva : ℚ) : Metricas :=
  let rows := cuadro monto n_cuotas tna gastos iva
  { n_cuotas := n_cuotas
    cuota_total_media := (rows.map (fun r => r.cuotaTotal)).sum / (rows.length : ℚ)
    costo_financiero_total_pct := cft_anual irr (flujo_caja_cft monto rows) * 100 }

/-- `generar_cuadro_marcha`.  When `n_cuotas = 0` the loop body never runs,
`cuadro_data` is empty, and `pd.DataFrame([])` has no columns, so the
summary line `cuadro_df[...].sum()` raises `KeyError`; that propagated
exception is the `Except.error` branch. -/
def generar_cuadro_marcha (irr : List ℚ → Option ℚ) (monto : ℚ) (n_cuotas : ℕ)
    (tna gastos iva : ℚ) : Except String (List Row × Metricas) :=
  let rows := cuadro monto n_cuotas tna gastos iva
  if rows.isEmpty then Except.error "KeyError: Interes"
  else Except.ok (rows, resumen irr monto n_cuotas tna gastos iva)

/-- The running-best update `if opcion_actual < mejor_opcion`: `none` is the
initial `{cft: inf}` sentinel, which every finite rate beats; an existing
best is replaced only on strictly smaller cost rate. -/
def updateBest : Option Opcion → Opcion → Option Opcion
  | none, op => some op
  | some b, op => if op.cft_pct < b.cft_pct then some op else some b

/-- The `opcion_actual` dictionary built from one candidate's metrics. -/
def opcion_de (m : Metricas) : Opcion :=
  { n_cuotas := m.n_cuotas
    cft_pct := m.costo_financiero_total_pct
    cuota_total := m.cuota_total_media }

/-- One iteration of the optimizer loop: record the candidate and update the
running best when the mean payment is affordable, otherwise skip it. -/
def step (cuota_maxima : ℚ) (acc : Option Opcion × List Opcion) (m : Metricas) :
    Option Opcion × List Opcion :=
  if m.cuota_total_media ≤ cuota_maxima then
    let op := opcion_de m
    (updateBest acc.1 op, acc.2 ++ [op])
  else acc

/-- Run `generar_cuadro_marcha` for each candidate count, keeping only the
metrics (the schedule is discarded by `optimizar_prestamo`); an exception
from any call propagates, aborting the loop. -/
def generarLista (irr : List ℚ → Option ℚ) (monto tna gastos iva : ℚ) :
    List ℕ → Except String (List Metricas)
  | [] => Except.ok []
  | n :: rest =>
    match generar_cuadro_marcha irr monto n tna gastos iva with
    | Except.error e => Except.error e
    | Except.ok (_, m) =>
      match generarLista irr monto tna gastos iva rest with
      | Except.error e => Except.error e
      | Except.ok ms => Except.ok (m :: ms)

/-- `optimizar_prestamo`: enumerate `range(rango[0], rango[1]+1)`, filter by
affordability, track the running best; `none` is the `(None, None)` return
for an empty candidate list.  (The inner `none` branch mirrors returning
the never-updated sentinel; it is unreachable because every recorded
candidate updates the running best.) -/
def optimizar_prestamo (irr : List ℚ → Option ℚ)
    (monto tna gastos iva cuota_maxima : ℚ) (r_min r_max : ℕ) :
    Except String (Option (Opcion × List Opcion)) :=
  (generarLista irr monto tna gastos iva
      (List.range' r_min (r_max + 1 - r_min))).map
    (fun ms =>
      let res := ms.foldl (step cuota_maxima) (none, [])
      if res.2.isEmpty then none
      else
        match res.1 with
        | some mejor => some (mejor, res.2)
        | none => none)

/-- A degenerate IRR oracle that always fails; used to evaluate the model on
concrete inputs. -/
def irrNone : List ℚ → Option ℚ := fun _ => none

/-- The candidates that pass the affordability filter, in loop order. -/
def valids (cuota_maxima : ℚ) (ms : List Metricas) : List Opcion :=
  (ms.filter (fun m => decide (m.cuota_total_media ≤ cuota_maxima))).map opcion_de

/-- The metrics the optimizer sees for each candidate count in the range. -/
def rangoMetricas (irr : List ℚ → Option ℚ) (monto tna g i : ℚ) (r_min r_max : ℕ) :
    List Metricas :=
  (List.range' r_min (r_max + 1 - r_min)).map (fun n => resumen irr monto n tna g i)

/-! ### Structural lemmas about the schedule loop -/

lemma filasAux_zero (cp tasa g i : ℚ) (n periodo : ℕ) (saldo : ℚ) :
    filasAux cp tasa g i n 0 periodo saldo = [] := rfl

lemma filasAux_succ (cp tasa g i : ℚ) (n rem periodo : ℕ) (saldo : ℚ) :
    filasAux cp tasa g i n (rem + 1) periodo saldo =
      mkRow cp tasa g i n periodo saldo ::
        filasAux cp tasa g i n rem (periodo + 1)
          (mkRow cp tasa g i n periodo saldo).saldoFinal := rfl

lemma filasAux_length (cp tasa g i : ℚ) (n : ℕ) :
    ∀ (rem periodo : ℕ) (saldo : ℚ),
      (filasAux cp tasa g i n rem periodo saldo).length = rem := by
  intro rem
  induction rem with
  | zero => intro periodo saldo; rfl
  | succ rem ih =>
    intro periodo saldo
    simp only [filasAux, List.length_cons, ih]

lemma cuadro_length (monto : ℚ) (n : ℕ) (tna g i : ℚ) :
    (cuadro monto n tna g i).length = n :=
  filasAux_length _ _ _ _ _ _ _ _

lemma cuadro_ne_nil (monto : ℚ) (n : ℕ) (tna g i : ℚ) (hn : 0 < n) :
    cuadro monto n tna g i ≠ [] := by
  intro h
  have := cuadro_length monto n tna g i
  rw [h] at this
  simp at this
  omega

/-- The amortization column telescopes: over any suffix of the loop starting
with running balance `saldo`, the recorded amortizations add up to `saldo`,
because the final period absorbs the whole remaining balance. -/
lemma filasAux_sum_amort (cp tasa g i : ℚ) (n : ℕ) :
    ∀ (rem periodo : ℕ) (saldo : ℚ), 0 < rem → periodo + rem = n + 1 →
      ((filasAux cp tasa g i n rem periodo saldo).map Row.amortizacion).sum = saldo := by
  intro rem
  induction rem with
  | zero => intro periodo saldo h; omega
  | succ rem ih =>
    intro periodo saldo _ hinv
    cases rem with
    | zero =>
      have hp : periodo = n := by omega
      simp [filasAux, mkRow, hp]
    | succ rem' =>
      have hne : periodo ≠ n := by omega
      have h1 : 0 < rem' + 1 := Nat.succ_pos _
      have h2 : (periodo + 1) + (rem' + 1) = n + 1 := by omega
      rw [filasAux_succ, List.map_cons, List.sum_cons, ih (periodo + 1) _ h1 h2]
      simp [mkRow, hne]

/-- Row indices are the consecutive integers starting at `periodo`. -/
lemma filasAux_map_nCuota (cp tasa g i : ℚ) (n : ℕ) :
    ∀ (rem periodo : ℕ) (saldo : ℚ),
      (filasAux cp tasa g i n rem periodo saldo).map Row.nCuota =
        List.range' periodo rem := by
  intro rem
  induction rem with
  | zero => intro periodo saldo; rfl
  | succ rem ih =>
    intro periodo saldo
    simp only [filasAux, List.map_cons, ih, List.range'_succ, mkRow]

/-- The first produced row opens at the running balance. -/
lemma filasAux_head?_saldoInicial (cp tasa g i : ℚ) (n rem periodo : ℕ) (saldo : ℚ)
    (h : 0 < rem) :
    ((filasAux cp tasa g i n rem periodo saldo).map Row.saldoInicial).head? =
      some saldo := by
  cases rem with
  | zero => omega
  | succ rem => simp [filasAux, mkRow]

/-- Adjacent rows agree: each closing balance is the next opening balance. -/
lemma filasAux_chain' (cp tasa g i : ℚ) (n : ℕ) :
    ∀ (rem periodo : ℕ) (saldo : ℚ),
      List.Chain' (fun r s => Row.saldoFinal r = Row.saldoInicial s)
        (filasAux cp tasa g i n rem periodo saldo) := by
  intro rem
  induction rem with
  | zero => intro periodo saldo; simp [filasAux]
  | succ rem ih =>
    intro periodo saldo
    rw [filasAux_succ, List.chain'_cons']
    refine ⟨?_, ih _ _⟩
    intro y hy
    cases rem with
    | zero => rw [filasAux_zero] at hy; simp at hy
    | succ rem' =>
      rw [filasAux_succ] at hy
      simp only [List.head?_cons, Option.mem_def, Option.some.injEq] at hy
      subst hy
      simp [mkRow]

/-- The last row of any run that reaches period `n`: its amortization is the
whole opening balance, its closing balance is 0, and its index is `n`. -/
lemma filasAux_getLast? (cp tasa g i : ℚ) (n : ℕ) :
    ∀ (rem periodo : ℕ) (saldo : ℚ), 0 < rem → periodo + rem = n + 1 →
      ∃ r, (filasAux cp tasa g i n rem periodo saldo).getLast? = some r ∧
        r.amortizacion = r.saldoInicial ∧ r.saldoFinal = 0 ∧ r.nCuota = n := by
  intro rem
  induction rem with
  | zero => intro periodo saldo h; omega
  | succ rem ih =>
    intro periodo saldo _ hinv
    cases rem with
    | zero =>
      have hp : periodo = n := by omega
      refine ⟨mkRow cp tasa g i n periodo saldo, ?_, ?_, ?_, ?_⟩ <;>
        simp [filasAux, mkRow, hp]
    | succ rem' =>
      have h1 : 0 < rem' + 1 := Nat.succ_pos _
      have h2 : (periodo + 1) + (rem' + 1) = n + 1 := by omega
      obtain ⟨r, hr, h3, h4, h5⟩ := ih (periodo + 1)
        (mkRow cp tasa g i n periodo saldo).saldoFinal h1 h2
      refine ⟨r, ?_, h3, h4, h5⟩
      rw [filasAux_succ, List.getLast?_cons, hr, Option.getD_some]

/-- Fields every row shares: the pure installment is the precomputed `cp`,
the interest is the opening balance times the monthly rate, and the total
payment is `cp` plus fee-and-tax charges computed from that interest —
independent of any amortization override. -/
lemma filasAux_fields (cp tasa g i : ℚ) (n : ℕ) :
    ∀ (rem periodo : ℕ) (saldo : ℚ),
      ∀ r ∈ filasAux cp tasa g i n rem periodo saldo,
        r.cuotaPura = cp ∧ r.interes = r.saldoInicial * tasa ∧
          r.gastosAdmin = g ∧ r.iva = r.saldoInicial * tasa * i + g * i ∧
          r.cuotaTotal = cp + (g + r.saldoInicial * tasa * i + g * i) := by
  intro rem
  induction rem with
  | zero => intro periodo saldo r hr; simp [filasAux] at hr
  | succ rem ih =>
    intro periodo saldo r hr
    rw [filasAux, List.mem_cons] at hr
    rcases hr with hr | hr
    · subst hr
      refine ⟨rfl, rfl, rfl, rfl, ?_⟩
      simp [mkRow]
    · exact ih _ _ r hr

/-! ### Lemmas about the optimizer -/

lemma generar_ok (irr : List ℚ → Option ℚ) (monto : ℚ) (n : ℕ) (tna g i : ℚ)
    (hn : 0 < n) :
    generar_cuadro_marcha irr monto n tna g i =
      Except.ok (cuadro monto n tna g i, resumen irr monto n tna g i) := by
  have h : ¬(cuadro monto n tna g i).isEmpty = true := by
    rw [List.isEmpty_iff]
    exact cuadro_ne_nil monto n tna g i hn
  rw [generar_cuadro_marcha, if_neg h]

lemma generarLista_ok (irr : List ℚ → Option ℚ) (monto tna g i : ℚ) :
    ∀ l : List ℕ, (∀ n ∈ l, 0 < n) →
      generarLista irr monto tna g i l =
        Except.ok (l.map (fun n => resumen irr monto n tna g i)) := by
  intro l
  induction l with
  | nil => intro _; rfl
  | cons n rest ih =>
    intro h
    rw [generarLista, generar_ok irr monto n tna g i (h n (List.mem_cons_self n rest)),
      ih (fun m hm => h m (List.mem_cons_of_mem n hm))]
    rfl

lemma foldl_step_eq (cuota_maxima : ℚ) :
    ∀ (ms : List Metricas) (b : Option Opcion) (v : List Opcion),
      ms.foldl (step cuota_maxima) (b, v) =
        ((valids cuota_maxima ms).foldl updateBest b, v ++ valids cuota_maxima ms) := by
  intro ms
  induction ms with
  | nil => intro b v; simp [valids]
  | cons m rest ih =>
    intro b v
    by_cases hm : m.cuota_total_media ≤ cuota_maxima
    · have hv : valids cuota_maxima (m :: rest) =
          opcion_de m :: valids cuota_maxima rest := by
        simp [valids, List.filter_cons, hm]
      rw [List.foldl_cons, hv, List.foldl_cons]
      have hstep : step cuota_maxima (b, v) m =
          (updateBest b (opcion_de m), v ++ [opcion_de m]) := by
        simp [step, hm]
      rw [hstep, ih]
      simp
    · have hv : valids cuota_maxima (m :: rest) = valids cuota_maxima rest := by
        simp [valids, List.filter_cons, hm]
      have hstep : step cuota_maxima (b, v) m = (b, v) := by
        simp [step, hm]
      rw [List.foldl_cons, hstep, hv, ih]

/-- Complete characterization of the running best over a suffix of the
candidate list, starting from a current best `b`: either `b` survives and
beats every later candidate (non-strictly), or the result splits the list
around the first later candidate that strictly beats `b` and every
candidate before it, while every candidate after it does not strictly beat
the result. -/
lemma foldl_updateBest_some (l : List Opcion) : ∀ b : Opcion,
    ∃ b', l.foldl updateBest (some b) = some b' ∧
      ((b' = b ∧ ∀ c ∈ l, b.cft_pct ≤ c.cft_pct) ∨
        (∃ l1 l2, l = l1 ++ b' :: l2 ∧ b'.cft_pct < b.cft_pct ∧
          (∀ c ∈ l1, b'.cft_pct < c.cft_pct) ∧ (∀ c ∈ l2, b'.cft_pct ≤ c.cft_pct))) := by
  induction l with
  | nil =>
    intro b
    exact ⟨b, rfl, Or.inl ⟨rfl, by simp⟩⟩
  | cons o l ih =>
    intro b
    by_cases h : o.cft_pct < b.cft_pct
    · obtain ⟨b', hst, hsp⟩ := ih o
      refine ⟨b', ?_, ?_⟩
      · rw [List.foldl_cons]
        have : updateBest (some b) o = some o := by simp [updateBest, h]
        rw [this, hst]
      · rcases hsp with ⟨rfl, hall⟩ | ⟨l1, l2, hsplit, hlt, hbefore, hafter⟩
        · exact Or.inr ⟨[], l, rfl, h, by simp, hall⟩
        · refine Or.inr ⟨o :: l1, l2, by rw [hsplit]; rfl, lt_trans hlt h, ?_, hafter⟩
          intro c hc
          rcases List.mem_cons.mp hc with rfl | hc
          · exact hlt
          · exact hbefore c hc
    · obtain ⟨b', hst, hsp⟩ := ih b
      refine ⟨b', ?_, ?_⟩
      · rw [List.foldl_cons]
        have : updateBest (some b) o = some b := by simp [updateBest, h]
        rw [this, hst]
      · rcases hsp with ⟨rfl, hall⟩ | ⟨l1, l2, hsplit, hlt, hbefore, hafter⟩
        · refine Or.inl ⟨rfl, ?_⟩
          intro c hc
          rcases List.mem_cons.mp hc with rfl | hc
          · exact le_of_not_lt h
          · exact hall c hc
        · refine Or.inr ⟨o :: l1, l2, by rw [hsplit]; rfl, hlt, ?_, hafter⟩
          intro c hc
          rcases List.mem_cons.mp hc with rfl | hc
          · exact lt_of_lt_of_le hlt (le_of_not_lt h)
          · exact hbefore c hc

/-- Starting from the `+inf` sentinel, the loop returns the first candidate
with the strictly smallest cost rate: everything before it is strictly
worse, everything after it is no better. -/
lemma foldl_updateBest_none (l : List Opcion) (b' : Opcion)
    (h : l.foldl updateBest none = some b') :
    ∃ l1 l2, l = l1 ++ b' :: l2 ∧
      (∀ c ∈ l1, b'.cft_pct < c.cft_pct) ∧ (∀ c ∈ l2, b'.cft_pct ≤ c.cft_pct) := by
  cases l with
  | nil => simp [List.foldl_nil] at h
  | cons o l =>
    rw [List.foldl_cons] at h
    have hu : updateBest none o = some o := rfl
    rw [hu] at h
    obtain ⟨b'', hst, hsp⟩ := foldl_updateBest_some l o
    rw [hst] at h
    cases h
    rcases hsp with ⟨rfl, hall⟩ | ⟨l1, l2, hsplit, hlt, hbefore, hafter⟩
    · exact ⟨[], l, rfl, by simp, hall⟩
    · refine ⟨o :: l1, l2, by rw [hsplit]; rfl, ?_, hafter⟩
      intro c hc
      rcases List.mem_cons.mp hc with rfl | hc
      · exact hlt
      · exact hbefore c hc

lemma foldl_updateBest_eq_none (l : List Opcion)
    (h : l.foldl updateBest none = none) : l = [] := by
  cases l with
  | nil => rfl
  | cons o l =>
    rw [List.foldl_cons] at h
    have hu : updateBest none o = some o := rfl
    rw [hu] at h
    obtain ⟨b'', hst, _⟩ := foldl_updateBest_some l o
    rw [hst] at h
    exact absurd h (by simp)

/-- With a range starting at 1 or above no schedule generation fails, and
the optimizer reduces to the running-best fold over the filtered
candidates. -/
lemma optimizar_eq (irr : List ℚ → Option ℚ) (monto tna g i cmax : ℚ)
    (a b : ℕ) (ha : 1 ≤ a) :
    optimizar_prestamo irr monto tna g i cmax a b =
      Except.ok
        (match (valids cmax (rangoMetricas irr monto tna g i a b)).foldl updateBest none with
          | some mejor => some (mejor, valids cmax (rangoMetricas irr monto tna g i a b))
          | none => none) := by
  have hpos : ∀ n ∈ List.range' a (b + 1 - a), 0 < n := by
    intro n hn
    have := (List.mem_range'_1.mp hn).1
    omega
  rw [optimizar_prestamo, generarLista_ok irr monto tna g i _ hpos]
  rw [show (List.range' a (b + 1 - a)).map (fun n => resumen irr monto n tna g i) =
    rangoMetricas irr monto tna g i a b from rfl]
  simp only [Except.map]
  rw [foldl_step_eq cmax (rangoMetricas irr monto tna g i a b) none []]
  simp only [List.nil_append]
  rcases hfold : (valids cmax (rangoMetricas irr monto tna g i a b)).foldl updateBest none with
    _ | mejor
  · have hnil := foldl_updateBest_eq_none _ hfold
    rw [hnil]
    rfl
  · have hne : valids cmax (rangoMetricas irr monto tna g i a b) ≠ [] := by
      intro hnil
      rw [hnil] at hfold
      simp [List.foldl_nil] at hfold
    simp only [List.isEmpty_iff, hne, if_false]

/-- Every recorded candidate satisfies the affordability constraint. -/
lemma mem_valids_le (cmax : ℚ) (ms : List Metricas) (c : Opcion)
    (hc : c ∈ valids cmax ms) : c.cuota_total ≤ cmax := by
  rw [valids, List.mem_map] at hc
  obtain ⟨m, hm, rfl⟩ := hc
  rw [List.mem_filter] at hm
  have := hm.2
  simp only [decide_eq_true_eq] at this
  exact this

/-- The candidate list has strictly increasing installment counts. -/
lemma valids_pairwise (irr : List ℚ → Option ℚ) (monto tna g i cmax : ℚ)
    (a b : ℕ) :
    List.Pairwise (fun x y => x.n_cuotas < y.n_cuotas)
      (valids cmax (rangoMetricas irr monto tna g i a b)) := by
  have h1 : List.Pairwise (· < ·) (List.range' a (b + 1 - a)) :=
    List.pairwise_lt_range' a (b + 1 - a)
  have h2 : List.Pairwise (fun x y => Metricas.n_cuotas x < Metricas.n_cuotas y)
      (rangoMetricas irr monto tna g i a b) := by
    refine List.Pairwise.map _ ?_ h1
    intro a' b' hab
    exact hab
  rw [valids]
  refine List.Pairwise.map _ ?_ (List.Pairwise.filter _ h2)
  intro a' b' hab
  exact hab

/-- Membership in the candidate list for an affordable count in range. -/
lemma mem_valids_of_range (irr : List ℚ → Option ℚ) (monto tna g i cmax : ℚ)
    (a b n : ℕ) (h1 : a ≤ n) (h2 : n ≤ b)
    (h3 : (resumen irr monto n tna g i).cuota_total_media ≤ cmax) :
    opcion_de (resumen irr monto n tna g i) ∈
      valids cmax (rangoMetricas irr monto tna g i a b) := by
  rw [valids, List.mem_map]
  refine ⟨resumen irr monto n tna g i, ?_, rfl⟩
  rw [List.mem_filter]
  constructor
  · rw [rangoMetricas, List.mem_map]
    refine ⟨n, ?_, rfl⟩
    rw [List.mem_range'_1]
    omega
  · simp only [decide_eq_true_eq]
    exact h3

/-! ### Claim theorems -/

/-- Claim C1: for every valid input (positive principal, at least one
period, non-negative annual rate, fee and tax rate) the amortization
amounts recorded in the generated schedule add up exactly to the
principal. -/
theorem sum_amortizacion_eq_monto (monto : ℚ) (n : ℕ) (tna gastos iva : ℚ)
    (hm : 0 < monto) (hn : 1 ≤ n) (ht : 0 ≤ tna) (hg : 0 ≤ gastos) (hi : 0 ≤ iva) :
    ((cuadro monto n tna gastos iva).map Row.amortizacion).sum = monto := by
  rw [cuadro]
  exact filasAux_sum_amort _ _ _ _ n n 1 monto (by omega) (by omega)

theorem sum_amortizacion_eq_monto_witness :
    (0:ℚ) < 1000 ∧ 1 ≤ 2 ∧ (0:ℚ) ≤ 12 ∧ (0:ℚ) ≤ 10 ∧ (0:ℚ) ≤ 1/5 ∧
      ((cuadro 1000 2 12 10 (1/5)).map Row.amortizacion).sum = 1000 :=
  ⟨by norm_num, by norm_num, by norm_num, by norm_num, by norm_num,
    sum_amortizacion_eq_monto 1000 2 12 10 (1/5) (by norm_num) (by norm_num)
      (by norm_num) (by norm_num) (by norm_num)⟩

/-- Claim C3: for every valid input with at least one period, the closing
balance of the final schedule row is exactly zero, because the last
period's amortization is forced to the remaining opening balance. -/
theorem saldo_final_ultimo_cero (monto : ℚ) (n : ℕ) (tna gastos iva : ℚ)
    (hm : 0 < monto) (hn : 1 ≤ n) (ht : 0 ≤ tna) (hg : 0 ≤ gastos) (hi : 0 ≤ iva) :
    ((cuadro monto n tna gastos iva).map Row.saldoFinal).getLast? = some 0 := by
  obtain ⟨r, hr, _, h0, _⟩ := filasAux_getLast? (cuota_pura monto n (tna / 12))
    (tna / 12) gastos iva n n 1 monto (by omega) (by omega)
  rw [List.getLast?_map, cuadro, hr, Option.map_some', h0]

theorem saldo_final_ultimo_cero_witness :
    (0:ℚ) < 1000 ∧ 1 ≤ 2 ∧ (0:ℚ) ≤ 12 ∧ (0:ℚ) ≤ 10 ∧ (0:ℚ) ≤ 1/5 ∧
      ((cuadro 1000 2 12 10 (1/5)).map Row.saldoFinal).getLast? = some 0 :=
  ⟨by norm_num, by norm_num, by norm_num, by norm_num, by norm_num,
    saldo_final_ultimo_cero 1000 2 12 10 (1/5) (by norm_num) (by norm_num)
      (by norm_num) (by norm_num) (by norm_num)⟩

/-- Claim C4 (code bug): at `periodCount = 0` the source neither returns an
empty schedule with zero metrics nor rejects with an explicit
invalid-argument signal; the loop produces no rows, the empty DataFrame
has no columns, and the summary computation raises `KeyError`, which
propagates to the caller. -/
theorem generar_cero_cuotas_error (irr : List ℚ → Option ℚ)
    (monto tna gastos iva : ℚ) :
    generar_cuadro_marcha irr monto 0 tna gastos iva =
      Except.error "KeyError: Interes" := rfl

/-- Claim C5: the annualized cost rate reported by the generator is 0 when
the IRR oracle fails or returns a periodic rate ≤ −1, and otherwise equals
`((1+r)^12 − 1) · 100`; the failure is never propagated. -/
theorem cft_degrada_a_cero (irr : List ℚ → Option ℚ) (monto : ℚ) (n : ℕ)
    (tna gastos iva : ℚ) (hm : 0 < monto) (hn : 1 ≤ n) (ht : 0 ≤ tna)
    (hg : 0 ≤ gastos) (hi : 0 ≤ iva) :
    generar_cuadro_marcha irr monto n tna gastos iva =
      Except.ok (cuadro monto n tna gastos iva, resumen irr monto n tna gastos iva) ∧
    (irr (flujo_caja_cft monto (cuadro monto n tna gastos iva)) = none →
      (resumen irr monto n tna gastos iva).costo_financiero_total_pct = 0) ∧
    (∀ r, irr (flujo_caja_cft monto (cuadro monto n tna gastos iva)) = some r →
      r ≤ -1 → (resumen irr monto n tna gastos iva).costo_financiero_total_pct = 0) ∧
    (∀ r, irr (flujo_caja_cft monto (cuadro monto n tna gastos iva)) = some r →
      -1 < r → (resumen irr monto n tna gastos iva).costo_financiero_total_pct =
        ((1 + r) ^ (12 : ℕ) - 1) * 100) := by
  refine ⟨generar_ok irr monto n tna gastos iva (by omega), ?_, ?_, ?_⟩
  · intro h
    simp [resumen, cft_anual, h]
  · intro r hr hle
    simp [resumen, cft_anual, hr, not_lt.mpr hle]
  · intro r hr hgt
    simp [resumen, cft_anual, hr, hgt]

theorem cft_degrada_a_cero_witness :
    (0:ℚ) < 100 ∧ 1 ≤ 1 ∧ (0:ℚ) ≤ 0 ∧ (0:ℚ) ≤ 0 ∧ (0:ℚ) ≤ 0 ∧
      (generar_cuadro_marcha irrNone 100 1 0 0 0 =
        Except.ok (cuadro 100 1 0 0 0, resumen irrNone 100 1 0 0 0) ∧
      (irrNone (flujo_caja_cft 100 (cuadro 100 1 0 0 0)) = none →
        (resumen irrNone 100 1 0 0 0).costo_financiero_total_pct = 0) ∧
      (∀ r, irrNone (flujo_caja_cft 100 (cuadro 100 1 0 0 0)) = some r →
        r ≤ -1 → (resumen irrNone 100 1 0 0 0).costo_financiero_total_pct = 0) ∧
      (∀ r, irrNone (flujo_caja_cft 100 (cuadro 100 1 0 0 0)) = some r →
        -1 < r → (resumen irrNone 100 1 0 0 0).costo_financiero_total_pct =
          ((1 + r) ^ (12 : ℕ) - 1) * 100)) :=
  ⟨by norm_num, by norm_num, by norm_num, by norm_num, by norm_num,
    cft_degrada_a_cero irrNone 100 1 0 0 0 (by norm_num) (by norm_num)
      (by norm_num) (by norm_num) (by norm_num)⟩

/-- Claim C7: at a zero annual rate the pure installment is exactly
`principal / periodCount` and the recorded interest is 0 in every
period. -/
theorem tasa_cero_cuota_pura (monto : ℚ) (n : ℕ) (gastos iva : ℚ)
    (hm : 0 < monto) (hn : 1 ≤ n) :
    cuota_pura monto n (0 / 12) = monto / n ∧
    ∀ r ∈ cuadro monto n 0 gastos iva, r.cuotaPura = monto / n ∧ r.interes = 0 := by
  have hz : (0:ℚ) / 12 = 0 := by norm_num
  have hcp : cuota_pura monto n (0 / 12) = monto / n := by
    rw [hz, cuota_pura, if_neg (lt_irrefl 0), if_pos (by omega : 0 < n)]
  refine ⟨hcp, ?_⟩
  intro r hr
  rw [cuadro] at hr
  obtain ⟨h1, h2, _, _, _⟩ := filasAux_fields (cuota_pura monto n (0 / 12))
    (0 / 12) gastos iva n n 1 monto r hr
  refine ⟨by rw [h1, hcp], ?_⟩
  rw [h2, hz, mul_zero]

theorem tasa_cero_cuota_pura_witness :
    (0:ℚ) < 300 ∧ 1 ≤ 3 ∧
      (cuota_pura 300 3 (0 / 12) = 300 / 3 ∧
        ∀ r ∈ cuadro 300 3 0 7 (1/10), r.cuotaPura = 300 / 3 ∧ r.interes = 0) :=
  ⟨by norm_num, by norm_num,
    tasa_cero_cuota_pura 300 3 7 (1/10) (by norm_num) (by norm_num)⟩

/-- Claim C8: the schedule rows carry the period indices 1..n in order, the
first row opens at the principal, and every closing balance equals the
next row's opening balance. -/
theorem cuadro_ordenado_encadenado (monto : ℚ) (n : ℕ) (tna gastos iva : ℚ)
    (hm : 0 < monto) (hn : 1 ≤ n) (ht : 0 ≤ tna) (hg : 0 ≤ gastos) (hi : 0 ≤ iva) :
    (cuadro monto n tna gastos iva).map Row.nCuota = List.range' 1 n ∧
    ((cuadro monto n tna gastos iva).map Row.saldoInicial).head? = some monto ∧
    List.Chain' (fun r s => Row.saldoFinal r = Row.saldoInicial s)
      (cuadro monto n tna gastos iva) :=
  ⟨filasAux_map_nCuota _ _ _ _ n n 1 monto,
    filasAux_head?_saldoInicial _ _ _ _ n n 1 monto (by omega),
    filasAux_chain' _ _ _ _ n n 1 monto⟩

theorem cuadro_ordenado_encadenado_witness :
    (0:ℚ) < 1000 ∧ 1 ≤ 2 ∧ (0:ℚ) ≤ 12 ∧ (0:ℚ) ≤ 10 ∧ (0:ℚ) ≤ 1/5 ∧
      ((cuadro 1000 2 12 10 (1/5)).map Row.nCuota = List.range' 1 2 ∧
        ((cuadro 1000 2 12 10 (1/5)).map Row.saldoInicial).head? = some 1000 ∧
        List.Chain' (fun r s => Row.saldoFinal r = Row.saldoInicial s)
          (cuadro 1000 2 12 10 (1/5))) :=
  ⟨by norm_num, by norm_num, by norm_num, by norm_num, by norm_num,
    cuadro_ordenado_encadenado 1000 2 12 10 (1/5) (by norm_num) (by norm_num)
      (by norm_num) (by norm_num) (by norm_num)⟩

/-- Claim C9: in the final period the amortization override changes only
the amortization (set to the full opening balance) and the closing
balance; the recorded total payment is still the unadjusted pure
installment plus fee-and-tax charges computed from the unadjusted
interest, and it is exactly the last entry of the cash-flow series used
for the cost-rate computation. -/
theorem ultima_fila_sin_ajuste (monto : ℚ) (n : ℕ) (tna gastos iva : ℚ)
    (hm : 0 < monto) (hn : 1 ≤ n) (ht : 0 ≤ tna) (hg : 0 ≤ gastos) (hi : 0 ≤ iva) :
    ∃ r, (cuadro monto n tna gastos iva).getLast? = some r ∧
      r.amortizacion = r.saldoInicial ∧
      r.cuotaPura = cuota_pura monto n (tna / 12) ∧
      r.cuotaTotal = cuota_pura monto n (tna / 12) +
        (gastos + r.saldoInicial * (tna / 12) * iva + gastos * iva) ∧
      (flujo_caja_cft monto (cuadro monto n tna gastos iva)).getLast? =
        some r.cuotaTotal := by
  obtain ⟨r, hr, hamort, _, _⟩ := filasAux_getLast? (cuota_pura monto n (tna / 12))
    (tna / 12) gastos iva n n 1 monto (by omega) (by omega)
  have hr' : (cuadro monto n tna gastos iva).getLast? = some r := by
    rw [cuadro]; exact hr
  have hmem : r ∈ cuadro monto n tna gastos iva := by
    obtain ⟨l', hl⟩ := List.getLast?_eq_some_iff.mp hr'
    rw [hl]
    exact List.mem_append_right _ (List.mem_singleton.mpr rfl)
  rw [cuadro] at hmem
  obtain ⟨h1, _, _, _, h5⟩ := filasAux_fields (cuota_pura monto n (tna / 12))
    (tna / 12) gastos iva n n 1 monto r hmem
  refine ⟨r, hr', hamort, h1, by rw [h5], ?_⟩
  rw [flujo_caja_cft, List.getLast?_cons, List.getLast?_map, hr', Option.map_some',
    Option.getD_some]

theorem ultima_fila_sin_ajuste_witness :
    (0:ℚ) < 1000 ∧ 1 ≤ 2 ∧ (0:ℚ) ≤ 12 ∧ (0:ℚ) ≤ 10 ∧ (0:ℚ) ≤ 1/5 ∧
      (∃ r, (cuadro 1000 2 12 10 (1/5)).getLast? = some r ∧
        r.amortizacion = r.saldoInicial ∧
        r.cuotaPura = cuota_pura 1000 2 (12 / 12) ∧
        r.cuotaTotal = cuota_pura 1000 2 (12 / 12) +
          (10 + r.saldoInicial * (12 / 12) * (1/5) + 10 * (1/5)) ∧
        (flujo_caja_cft 1000 (cuadro 1000 2 12 10 (1/5))).getLast? =
          some r.cuotaTotal) :=
  ⟨by norm_num, by norm_num, by norm_num, by norm_num, by norm_num,
    ultima_fila_sin_ajuste 1000 2 12 10 (1/5) (by norm_num) (by norm_num)
      (by norm_num) (by norm_num) (by norm_num)⟩

/-- Claim C2: when the optimizer returns a result, the returned best
candidate is affordable and belongs to the recorded candidate list, its
cost rate is minimal among all affordable counts in the range, and any
recorded candidate tying that rate has an installment count at least as
large (the first encountered, lowest count, wins). -/
theorem optimizar_mejor_minimo (irr : List ℚ → Option ℚ)
    (monto tna gastos iva cmax : ℚ) (a b : ℕ) (best : Opcion)
    (validos : List Opcion) (ha : 1 ≤ a) (hab : a ≤ b)
    (hres : optimizar_prestamo irr monto tna gastos iva cmax a b =
      Except.ok (some (best, validos))) :
    best.cuota_total ≤ cmax ∧ best ∈ validos ∧
    (∀ n, a ≤ n → n ≤ b →
      (resumen irr monto n tna gastos iva).cuota_total_media ≤ cmax →
      best.cft_pct ≤ (resumen irr monto n tna gastos iva).costo_financiero_total_pct) ∧
    (∀ c ∈ validos, c.cft_pct = best.cft_pct → best.n_cuotas ≤ c.n_cuotas) := by
  rw [optimizar_eq irr monto tna gastos iva cmax a b ha] at hres
  rcases hfold : (valids cmax (rangoMetricas irr monto tna gastos iva a b)).foldl
      updateBest none with _ | mejor
  · rw [hfold] at hres
    simp at hres
  · rw [hfold] at hres
    simp only [Except.ok.injEq, Option.some.injEq, Prod.mk.injEq] at hres
    obtain ⟨hb, hv⟩ := hres
    rw [← hb, ← hv]
    obtain ⟨l1, l2, hsplit, hbefore, hafter⟩ := foldl_updateBest_none _ _ hfold
    have hmemV : mejor ∈ valids cmax (rangoMetricas irr monto tna gastos iva a b) := by
      rw [hsplit]
      exact List.mem_append_right _ (List.mem_cons_self _ _)
    have hminV : ∀ c ∈ valids cmax (rangoMetricas irr monto tna gastos iva a b),
        mejor.cft_pct ≤ c.cft_pct := by
      intro c hc
      rw [hsplit] at hc
      rcases List.mem_append.mp hc with hc | hc
      · exact le_of_lt (hbefore c hc)
      · rcases List.mem_cons.mp hc with rfl | hc
        · exact le_refl _
        · exact hafter c hc
    refine ⟨mem_valids_le cmax _ mejor hmemV, hmemV, ?_, ?_⟩
    · intro n h1 h2 h3
      exact hminV _ (mem_valids_of_range irr monto tna gastos iva cmax a b n h1 h2 h3)
    · intro c hc hceq
      have hpw := valids_pairwise irr monto tna gastos iva cmax a b
      rw [hsplit] at hpw hc
      rcases List.mem_append.mp hc with hc | hc
      · have := hbefore c hc
        rw [hceq] at this
        exact absurd this (lt_irrefl _)
      · rcases List.mem_cons.mp hc with rfl | hc
        · exact le_refl _
        · have h2 := (List.pairwise_append.mp hpw).2.1
          exact le_of_lt ((List.pairwise_cons.mp h2).1 c hc)

theorem optimizar_mejor_minimo_witness :
    (1 ≤ 1 ∧ 1 ≤ 2 ∧ optimizar_prestamo irrNone 100 0 0 0 100 1 2 =
      Except.ok (some (⟨1, 0, 100⟩, [⟨1, 0, 100⟩, ⟨2, 0, 50⟩]))) ∧
    ((⟨1, 0, 100⟩ : Opcion).cuota_total ≤ 100 ∧
      (⟨1, 0, 100⟩ : Opcion) ∈ ([⟨1, 0, 100⟩, ⟨2, 0, 50⟩] : List Opcion) ∧
      (∀ n, 1 ≤ n → n ≤ 2 →
        (resumen irrNone 100 n 0 0 0).cuota_total_media ≤ 100 →
        (⟨1, 0, 100⟩ : Opcion).cft_pct ≤
          (resumen irrNone 100 n 0 0 0).costo_financiero_total_pct) ∧
      (∀ c ∈ ([⟨1, 0, 100⟩, ⟨2, 0, 50⟩] : List Opcion),
        c.cft_pct = (⟨1, 0, 100⟩ : Opcion).cft_pct →
        (⟨1, 0, 100⟩ : Opcion).n_cuotas ≤ c.n_cuotas)) :=
  ⟨⟨by norm_num, by norm_num, by
      norm_num [optimizar_prestamo, generarLista, generar_cuadro_marcha, resumen,
        cuadro, filasAux, mkRow, cuota_pura, cft_anual, flujo_caja_cft, irrNone,
        step, updateBest, opcion_de, List.range', Except.map, List.foldl]⟩,
    optimizar_mejor_minimo irrNone 100 0 0 0 100 1 2 ⟨1, 0, 100⟩
      [⟨1, 0, 100⟩, ⟨2, 0, 50⟩] (by norm_num) (by norm_num) (by
      norm_num [optimizar_prestamo, generarLista, generar_cuadro_marcha, resumen,
        cuadro, filasAux, mkRow, cuota_pura, cft_anual, flujo_caja_cft, irrNone,
        step, updateBest, opcion_de, List.range', Except.map, List.foldl])⟩

/-- Claim C6: the optimizer returns (never raises): the NotFound outcome
exactly when no count in the range has an affordable mean payment, and
otherwise a best candidate together with the complete list of affordable
candidates in increasing order of installment count. -/
theorem optimizar_notfound_completo (irr : List ℚ → Option ℚ)
    (monto tna gastos iva cmax : ℚ) (a b : ℕ) (ha : 1 ≤ a) :
    ∃ res, optimizar_prestamo irr monto tna gastos iva cmax a b = Except.ok res ∧
      (res = none ↔ ∀ n, a ≤ n → n ≤ b →
        ¬(resumen irr monto n tna gastos iva).cuota_total_media ≤ cmax) ∧
      (∀ best validos, res = some (best, validos) →
        validos = ((List.range' a (b + 1 - a)).filter
            (fun n => decide ((resumen irr monto n tna gastos iva).cuota_total_media ≤ cmax))).map
          (fun n => opcion_de (resumen irr monto n tna gastos iva)) ∧
        List.Pairwise (fun x y => x.n_cuotas < y.n_cuotas) validos) := by
  have hVeq : valids cmax (rangoMetricas irr monto tna gastos iva a b) =
      ((List.range' a (b + 1 - a)).filter
        (fun n => decide ((resumen irr monto n tna gastos iva).cuota_total_media ≤ cmax))).map
      (fun n => opcion_de (resumen irr monto n tna gastos iva)) := by
    rw [valids, rangoMetricas, List.filter_map, List.map_map]
    rfl
  have hVmem : ∀ n, a ≤ n → n ≤ b →
      (resumen irr monto n tna gastos iva).cuota_total_media ≤ cmax →
      opcion_de (resumen irr monto n tna gastos iva) ∈
        valids cmax (rangoMetricas irr monto tna gastos iva a b) :=
    fun n h1 h2 h3 => mem_valids_of_range irr monto tna gastos iva cmax a b n h1 h2 h3
  rcases hfold : (valids cmax (rangoMetricas irr monto tna gastos iva a b)).foldl
      updateBest none with _ | mejor
  · refine ⟨none, ?_, ?_, ?_⟩
    · rw [optimizar_eq irr monto tna gastos iva cmax a b ha, hfold]
    · have hnil := foldl_updateBest_eq_none _ hfold
      simp only [true_iff]
      intro n h1 h2 h3
      have := hVmem n h1 h2 h3
      rw [hnil] at this
      exact absurd this (List.not_mem_nil _)
    · intro best validos h
      exact absurd h (by simp)
  · refine ⟨some (mejor, valids cmax (rangoMetricas irr monto tna gastos iva a b)),
      ?_, ?_, ?_⟩
    · rw [optimizar_eq irr monto tna gastos iva cmax a b ha, hfold]
    · constructor
      · intro h
        exact absurd h (by simp)
      · intro hall
        have hne : valids cmax (rangoMetricas irr monto tna gastos iva a b) ≠ [] := by
          intro hnil
          rw [hnil] at hfold
          simp [List.foldl_nil] at hfold
        obtain ⟨c, hc⟩ := List.exists_mem_of_ne_nil _ hne
        rw [valids, List.mem_map] at hc
        obtain ⟨m, hm, rfl⟩ := hc
        rw [List.mem_filter] at hm
        obtain ⟨hm1, hm2⟩ := hm
        rw [rangoMetricas, List.mem_map] at hm1
        obtain ⟨n, hn, rfl⟩ := hm1
        rw [List.mem_range'_1] at hn
        simp only [decide_eq_true_eq] at hm2
        exact absurd hm2 (hall n hn.1 (by omega))
    · intro best validos h
      simp only [Option.some.injEq, Prod.mk.injEq] at h
      rw [← h.2, hVeq]
      exact ⟨rfl, hVeq ▸ valids_pairwise irr monto tna gastos iva cmax a b⟩

theorem optimizar_notfound_completo_witness :
    1 ≤ 1 ∧
    (∃ res, optimizar_prestamo irrNone 100 0 0 0 100 1 2 = Except.ok res ∧
      (res = none ↔ ∀ n, 1 ≤ n → n ≤ 2 →
        ¬(resumen irrNone 100 n 0 0 0).cuota_total_media ≤ 100) ∧
      (∀ best validos, res = some (best, validos) →
        validos = ((List.range' 1 (2 + 1 - 1)).filter
            (fun n => decide ((resumen irrNone 100 n 0 0 0).cuota_total_media ≤ 100))).map
          (fun n => opcion_de (resumen irrNone 100 n 0 0 0)) ∧
        List.Pairwise (fun x y => x.n_cuotas < y.n_cuotas) validos)) :=
  ⟨by norm_num, optimizar_notfound_completo irrNone 100 0 0 0 100 1 2 (by norm_num)⟩

/-- Claim C10: an empty period range (minPeriods > maxPeriods) makes the
optimizer evaluate no candidates and return the same NotFound outcome as
when the affordability constraint excludes every candidate, without any
error. -/
theorem optimizar_rango_vacio (irr : List ℚ → Option ℚ)
    (monto tna gastos iva cmax : ℚ) (a b : ℕ) (hba : b < a) :
    optimizar_prestamo irr monto tna gastos iva cmax a b = Except.ok none := by
  have h0 : b + 1 - a = 0 := by omega
  rw [optimizar_prestamo, h0]
  rfl

theorem optimizar_rango_vacio_witness :
    3 < 5 ∧ optimizar_prestamo irrNone 100 0 0 0 100 5 3 = Except.ok none :=
  ⟨by norm_num, optimizar_rango_vacio irrNone 100 0 0 0 100 5 3 (by norm_num)⟩

end FinanceOptim
